import Mathlib

/-!
Verification of the tsuru event API layer (`api/event.go`) and, where the
event engine itself is referenced by the spec but absent from the sources,
a model of that engine built from the specification's words (each such
definition is marked `Modelled from the spec:` in its doc comment).

Machine integers are modelled as `Nat`; BSON byte payloads as `List Nat`;
fallible operations return `Except`/`Option`.  The persistent store is
modelled as an in-memory list threaded explicitly; store-level I/O failures
are not modelled (the pure store never fails).
-/

namespace Tsuru

/-- Target of an operation: the unit of mutual exclusion (`event.Target`). -/
structure Target where
  ttype : String
  value : String
deriving DecidableEq, Repr

/-- Authorization descriptor: a permission scheme name plus a context list
(`event.AllowedPermission`). -/
structure AllowedDescr where
  scheme : String
  contexts : List String
deriving DecidableEq, Repr

/-- Cancellation sub-record written by a successful cancel request. -/
structure CancelInfo where
  requested : Bool
  reason : String
  requestedBy : String
  requestedAt : Nat
  acknowledged : Bool
deriving DecidableEq, Repr

/-- Persisted event record (`event.Event`).  Per the spec's data model,
`Running` is derived: the event is running iff `EndTime` is null. -/
structure Event where
  id : String
  kindName : String
  target : Target
  ownerName : String
  startTime : Nat
  endTime : Option Nat
  cancelInfo : Option CancelInfo
  allowed : AllowedDescr
  allowedCancel : AllowedDescr
  startCustomData : List Nat
deriving DecidableEq, Repr

/-- Running is derived from EndTime being null. -/
def Event.isRunning (e : Event) : Bool := e.endTime.isNone

/-- Administrator-defined prohibition rule (`event.Block`). -/
structure Block where
  id : String
  kindName : String
  ownerName : String
  targetType : String
  targetValue : String
  reason : String
  startTime : Nat
  endTime : Option Nat
deriving DecidableEq, Repr

/-- A Block is active iff its EndTime is null. -/
def Block.isActive (b : Block) : Bool := b.endTime.isNone

/-- Typed engine failures from the spec's error taxonomy (§7). -/
inductive EngineErr where
  | locked
  | blocked
  | invalidInput
  | notCancelable
  | activeBlockNotFound
  | notFound
deriving DecidableEq, Repr

/-- Modelled from the spec: human-readable messages of the engine's typed
failures (the exact wording is not fixed by the sources under `src/`). -/
def EngineErr.message : EngineErr → String
  | .locked => "event locked"
  | .blocked => "event blocked"
  | .invalidInput => "invalid input"
  | .notCancelable => "event is not running or is already being cancelled"
  | .activeBlockNotFound => "active event block with provided id not found"
  | .notFound => "event not found"

/-- Outcome of an API handler: Go handlers return `error`; `nil` after a
JSON encode is a 200 with body, `nil` after `WriteHeader(204)` is a
no-content response, a plain `nil` is a bare 200, an `errors.HTTP` carries
a status code and message, and any other error bubbles up. -/
inductive HandlerOutcome (α : Type) where
  | success
  | noContent
  | json (body : α)
  | httpError (code : Nat) (message : String)
  | otherError (message : String)
deriving DecidableEq, Repr

/-- Response of `permission.ErrUnauthorized`: an `errors.HTTP` with status
401. -/
def errUnauthorized {α : Type} : HandlerOutcome α :=
  .httpError 401 "You don't have permission to do this action"

/-- Permission environment: `permission.SafeGet` succeeds iff the scheme
name is known, and `permission.Check` is the external authorization
predicate over (token, scheme name, contexts). -/
structure PermEnv where
  knownScheme : String → Bool
  check : String → String → List String → Bool

/-- Full name of `permission.PermEventBlockRead`. -/
def permEventBlockRead : String := "event.block.read"

/-- Full name of `permission.PermEventBlockAdd`. -/
def permEventBlockAdd : String := "event.block.add"

/-- Full name of `permission.PermEventBlockRemove`. -/
def permEventBlockRemove : String := "event.block.remove"

/-- Full name of `permission.PermAppDeploy`. -/
def permAppDeploy : String := "app.deploy"

/-- Hex digit test used by `bson.IsObjectIdHex`. -/
def isHexDigit (c : Char) : Bool :=
  c.isDigit || ('a' ≤ c && c ≤ 'f') || ('A' ≤ c && c ≤ 'F')

/-- Model of `bson.IsObjectIdHex`: 24 hexadecimal characters. -/
def isObjectIdHex (s : String) : Bool :=
  s.length == 24 && s.toList.all isHexDigit

/-- Modelled from the spec: `GetByID(id) → Event | NotFound` — lookup of a
stored event by its identity (the `event` package is not under `src/`). -/
def getByID (store : List Event) (id : String) : Option Event :=
  store.find? (fun e => e.id == id)

/-- Modelled from the spec: `RequestCancel` (`Event.TryCancel`) is
permitted only if the event is currently Running; it fails with
`NotCancelable` if the event is already closed or already has a pending
CancelInfo, enforces a non-empty reason, and on success writes
CancelInfo{requested=true, reason, requestedBy, requestedAt=now}. -/
def tryCancel (e : Event) (reason requestedBy : String) (tnow : Nat) :
    Except EngineErr Event :=
  if !e.isRunning || e.cancelInfo.isSome then .error .notCancelable
  else if reason == "" then .error .invalidInput
  else .ok { e with cancelInfo := some ⟨true, reason, requestedBy, tnow, false⟩ }

/-- Replace the stored copy of an event after a successful mutation. -/
def updateEvent (store : List Event) (e' : Event) : List Event :=
  store.map (fun x => if x.id == e'.id then e' else x)

/-- Modelled from the spec: `Matches(block, kind, owner, target)` — a field
matches if the Block's pattern value is empty OR equal to the corresponding
candidate value; a Block matches overall iff all four fields match. -/
def blockMatches (b : Block) (kind owner : String) (t : Target) : Bool :=
  (b.kindName == "" || b.kindName == kind) &&
  (b.ownerName == "" || b.ownerName == owner) &&
  (b.targetType == "" || b.targetType == t.ttype) &&
  (b.targetValue == "" || b.targetValue == t.value)

/-- Engine state: the shared store's events and blocks. -/
structure EngineState where
  events : List Event
  blocks : List Block
deriving DecidableEq, Repr

/-- Whether some running event exists for the target. -/
def hasRunning (events : List Event) (t : Target) : Bool :=
  events.any (fun e => e.isRunning && e.target == t)

/-- Result of one `Open` attempt. -/
inductive OpenResult where
  | opened
  | locked
  | blocked
deriving DecidableEq, Repr

/-- Modelled from the spec: `Open(target, kind, owner, …)` — evaluates the
Block Policy Engine first (any active matching Block ⇒ `Blocked`, lock
state untouched); otherwise an atomic conditional insert keyed by Target
succeeds only if no Running event exists for that Target, else `Locked`
immediately, fail-fast with no queueing or internal retry. -/
def openStep (st : EngineState) (t : Target) (kind owner : String)
    (id : String) (allowed allowedCancel : AllowedDescr)
    (customData : List Nat) (tnow : Nat) : OpenResult × EngineState :=
  if (st.blocks.filter Block.isActive).any (fun b => blockMatches b kind owner t) then
    (.blocked, st)
  else if hasRunning st.events t then
    (.locked, st)
  else
    (.opened,
      { st with events :=
          ⟨id, kind, t, owner, tnow, none, none, allowed, allowedCancel, customData⟩
            :: st.events })

/-- Modelled from the spec: `Close(handle, …)` sets EndTime and clears
Running; the sole operation that releases the Target's lock. -/
def closeEvent (st : EngineState) (evtId : String) (tnow : Nat) : EngineState :=
  { st with events :=
      st.events.map (fun e => if e.id == evtId then { e with endTime := some tnow } else e) }

/-- Modelled from the spec: N concurrent `Open` calls for one Target
linearize through the store's atomic conditional write (§5); the
linearization is a sequence of `openStep` applications, each with a fresh
identity drawn from the counter `i`. -/
def runOpens (st : EngineState) (t : Target) (kind owner : String)
    (allowed allowedCancel : AllowedDescr) (customData : List Nat) (tnow : Nat) :
    Nat → Nat → List OpenResult × EngineState
  | _, 0 => ([], st)
  | i, n + 1 =>
    let p := openStep st t kind owner (toString i) allowed allowedCancel customData tnow
    let q := runOpens p.2 t kind owner allowed allowedCancel customData tnow (i + 1) n
    (p.1 :: q.1, q.2)

/-- Modelled from the spec: `AddBlock(block)` validates Reason is
non-empty, fails with `InvalidInput` otherwise, and persists the block as
active (fresh identity, StartTime now, EndTime null). -/
def addBlock (blocks : List Block) (b : Block) (newId : String) (tnow : Nat) :
    Except EngineErr (List Block × Block) :=
  if b.reason == "" then .error .invalidInput
  else
    let b' := { b with id := newId, startTime := tnow, endTime := none }
    .ok (blocks ++ [b'], b')

/-- Modelled from the spec: `RemoveBlock(id)` finds an active Block with
the given identity; if none exists it fails with `ActiveBlockNotFound`;
otherwise it sets EndTime to now, leaving history intact. -/
def removeBlock (blocks : List Block) (id : String) (tnow : Nat) :
    Except EngineErr (List Block) :=
  if blocks.any (fun b => b.id == id && b.isActive) then
    .ok (blocks.map (fun b =>
      if b.id == id && b.isActive then { b with endTime := some tnow } else b))
  else .error .activeBlockNotFound

/-- Insertion into a list kept sorted by a Nat key in descending order. -/
def insertDesc {α : Type} (key : α → Nat) (x : α) : List α → List α
  | [] => [x]
  | y :: ys => if key y ≤ key x then x :: y :: ys else y :: insertDesc key x ys

/-- Sort by a Nat key, most recent (largest) first. -/
def sortByDesc {α : Type} (key : α → Nat) (l : List α) : List α :=
  l.foldr (insertDesc key) []

/-- Modelled from the spec: `ListBlocks(activeFilter)` returns all Blocks,
optionally restricted to active or inactive, ordered by StartTime
descending. -/
def listBlocks (blocks : List Block) (active : Option Bool) : List Block :=
  sortByDesc Block.startTime
    (match active with
     | none => blocks
     | some a => blocks.filter (fun b => b.isActive == a))

/-- Modelled from the spec: `List(filter)` applies all non-empty Filter
predicates as conjunctive constraints (abstracted here as the predicate
`matchesFilter`), restricts results to events whose Allowed descriptor is
satisfied by the filter's permission context (`permCheck`), and orders by
StartTime descending. -/
def eventListEngine (permCheck : AllowedDescr → Bool)
    (matchesFilter : Event → Bool) (store : List Event) : List Event :=
  sortByDesc Event.startTime
    (store.filter (fun e => matchesFilter e && permCheck e.allowed))

/-- Modelled from the spec: `GetKinds()` — the set of all distinct Kind
values ever recorded, no permission filtering. -/
def getKinds (store : List Event) : List String :=
  (store.map Event.kindName).dedup

/-- Deploy payload decoded from StartCustomData (`app.DeployOptions`); only
the presence of the App matters to the handler logic. -/
structure App where
  name : String
  envs : List (String × String)
deriving DecidableEq, Repr

/-- Deploy options: the decoded form of a deploy event's StartCustomData. -/
structure DeployOptions where
  app : Option App
deriving DecidableEq, Repr

/-- Environment of `suppressSensitiveEnvs`: the config flag
`events:suppress-sensitive-envs` (its read error is discarded by the Go
code), the BSON codec pair, and — modelled from the spec, as the `app`
package is not under `src/` — `App.SuppressSensitiveEnvs`, the redaction
of secret-bearing fields. -/
structure SuppressEnv where
  suppressEnabled : Bool
  unmarshal : List Nat → Except String DeployOptions
  marshal : DeployOptions → Except String (List Nat)
  suppressApp : App → App

/-- Translation of `suppressSensitiveEnvs` (`api/event.go`): when the
config flag is off, the Kind is not the app-deploy permission name, the
StartCustomData payload is empty, or the decoded options carry no App, the
event is returned untouched; otherwise the App is redacted and
StartCustomData is re-serialized in place. -/
def suppressSensitiveEnvs (env : SuppressEnv) (e : Event) : Except String Event :=
  if !env.suppressEnabled then .ok e
  else if e.kindName != permAppDeploy || e.startCustomData.length == 0 then .ok e
  else
    match env.unmarshal e.startCustomData with
    | .error err => .error err
    | .ok deployOptions =>
      match deployOptions.app with
      | none => .ok e
      | some a =>
        match env.marshal { app := some (env.suppressApp a) } with
        | .error err => .error err
        | .ok bytes => .ok { e with startCustomData := bytes }

/-- Apply `suppressSensitiveEnvs` to each listed event, aborting on the
first failure (the handler's loop). -/
def suppressAll (env : SuppressEnv) : List Event → Except String (List Event)
  | [] => .ok []
  | e :: es =>
    match suppressSensitiveEnvs env e with
    | .error m => .error m
    | .ok e' =>
      match suppressAll env es with
      | .error m => .error m
      | .ok es' => .ok (e' :: es')

/-- Translation of the `eventList` handler: parse the filter, load the
caller's permissions (either step may fail), list events through the
engine, answer 204 when the result is empty, otherwise redact each event
and encode the list. -/
def eventList (parseErr permsErr : Option String)
    (permCheck : AllowedDescr → Bool) (matchesFilter : Event → Bool)
    (senv : SuppressEnv) (store : List Event) : HandlerOutcome (List Event) :=
  match parseErr with
  | some m => .otherError m
  | none =>
    match permsErr with
    | some m => .otherError m
    | none =>
      let events := eventListEngine permCheck matchesFilter store
      if events.length == 0 then .noContent
      else
        match suppressAll senv events with
        | .error m => .otherError m
        | .ok events' => .json events'

/-- Translation of the `kindList` handler: 204 when no kind was ever
recorded, otherwise the encoded kind list. -/
def kindList (store : List Event) : HandlerOutcome (List String) :=
  let kinds := getKinds store
  if kinds.length == 0 then .noContent
  else .json kinds

/-- Message of `permission.SafeGet` failure for an unknown scheme name. -/
def schemeNotFoundMsg (scheme : String) : String :=
  "unknown permission scheme: " ++ scheme

/-- Translation of the `eventInfo` handler: validate the uuid, look the
event up (404 on miss), resolve and evaluate the Allowed descriptor (401
when the predicate is false), redact, and encode. -/
def eventInfo (env : PermEnv) (senv : SuppressEnv) (token : String)
    (store : List Event) (uuid : String) : HandlerOutcome Event :=
  if !isObjectIdHex uuid then
    .httpError 400 ("uuid parameter is not ObjectId: " ++ uuid)
  else
    match getByID store uuid with
    | none => .httpError 404 EngineErr.notFound.message
    | some e =>
      if !env.knownScheme e.allowed.scheme then
        .otherError (schemeNotFoundMsg e.allowed.scheme)
      else if !env.check token e.allowed.scheme e.allowed.contexts then
        errUnauthorized
      else
        match suppressSensitiveEnvs senv e with
        | .error m => .otherError m
        | .ok e' => .json e'

/-- Side effects of the `eventCancel` handler: the store after the call,
whether `permission.Check` was evaluated, and whether `TryCancel` was
reached. -/
structure CancelEffects where
  newStore : List Event
  authConsulted : Bool
  cancelAttempted : Bool
deriving DecidableEq, Repr

/-- Translation of the `eventCancel` handler: validate the uuid, look the
event up (404 on miss), require a non-empty reason (400), resolve and
evaluate the AllowedCancel descriptor (401 when false), then attempt the
cancellation, mapping `ErrNotCancelable` to 400 and answering 204 on
success. -/
def eventCancel (env : PermEnv) (token userName : String)
    (store : List Event) (uuid reason : String) (tnow : Nat) :
    HandlerOutcome Unit × CancelEffects :=
  if !isObjectIdHex uuid then
    (.httpError 400 ("uuid parameter is not ObjectId: " ++ uuid), ⟨store, false, false⟩)
  else
    match getByID store uuid with
    | none => (.httpError 404 EngineErr.notFound.message, ⟨store, false, false⟩)
    | some e =>
      if reason == "" then
        (.httpError 400 "reason is mandatory", ⟨store, false, false⟩)
      else if !env.knownScheme e.allowedCancel.scheme then
        (.otherError (schemeNotFoundMsg e.allowedCancel.scheme), ⟨store, false, false⟩)
      else if !env.check token e.allowedCancel.scheme e.allowedCancel.contexts then
        (errUnauthorized, ⟨store, true, false⟩)
      else
        match tryCancel e reason userName tnow with
        | .error err =>
          if err == .notCancelable then
            (.httpError 400 err.message, ⟨store, true, true⟩)
          else (.otherError err.message, ⟨store, true, true⟩)
        | .ok e' => (.noContent, ⟨updateEvent store e', true, true⟩)

/-- Model of `strconv.ParseBool`: the parsed value and an ok flag; on any
other string Go returns `(false, err)`. -/
def parseBoolGo (s : String) : Bool × Bool :=
  if s == "1" || s == "t" || s == "T" || s == "true" || s == "TRUE" || s == "True" then
    (true, true)
  else if s == "0" || s == "f" || s == "F" || s == "false" || s == "FALSE" || s == "False" then
    (false, true)
  else (false, false)

/-- Translation of the `eventBlockList` handler: require the block-read
permission (401), parse the optional `active` query parameter discarding
the parse error, list blocks, 204 when empty, else encode. -/
def eventBlockList (env : PermEnv) (token : String) (blocks : List Block)
    (activeStr : String) : HandlerOutcome (List Block) :=
  if !env.check token permEventBlockRead [] then errUnauthorized
  else
    let active : Option Bool :=
      if activeStr != "" then some (parseBoolGo activeStr).1 else none
    let bs := listBlocks blocks active
    if bs.length == 0 then .noContent
    else .json bs

/-- Side effects of the block add/remove handlers: the engine state after
the call, whether `event.New` succeeded, and whether `evt.Done` ran. -/
structure BlockEffects where
  finalState : EngineState
  newSucceeded : Bool
  doneCalled : Bool
deriving DecidableEq, Repr

/-- Target type `event.TargetTypeEventBlock`. -/
def targetTypeEventBlock : String := "event-block"

/-- Allowed descriptor `event.Allowed(permission.PermEventBlockReadEvents)`. -/
def allowedBlockReadEvents : AllowedDescr := ⟨"event.block.read.events", []⟩

/-- Close the audit event after first pointing its Target at the block the
operation acted on (the `defer` body of `eventBlockAdd`). -/
def doneWithTarget (st : EngineState) (evtId value : String) (tnow : Nat) :
    EngineState :=
  { st with events :=
      st.events.map (fun e =>
        if e.id == evtId then
          { e with target := { e.target with value := value }, endTime := some tnow }
        else e) }

/-- Translation of the `eventBlockAdd` handler: require the block-add
permission (401), parse the block, require a non-empty reason (400), open
an audit event through the engine, and — with `evt.Done` deferred on every
later exit path — persist the block. -/
def eventBlockAdd (env : PermEnv) (token : String) (st : EngineState)
    (parse : Except String Block) (newEvtId newBlockId : String) (tnow : Nat) :
    HandlerOutcome Unit × BlockEffects :=
  if !env.check token permEventBlockAdd [] then (errUnauthorized, ⟨st, false, false⟩)
  else
    match parse with
    | .error m => (.otherError m, ⟨st, false, false⟩)
    | .ok block =>
      if block.reason == "" then
        (.httpError 400 "reason is required", ⟨st, false, false⟩)
      else
        match openStep st ⟨targetTypeEventBlock, ""⟩ permEventBlockAdd token
            newEvtId allowedBlockReadEvents ⟨"", []⟩ [] tnow with
        | (r, st1) =>
          match r with
          | .opened =>
            match addBlock st1.blocks block newBlockId tnow with
            | .error err =>
              let st2 := doneWithTarget { st1 with blocks := st1.blocks } newEvtId block.id tnow
              (.otherError err.message, ⟨st2, true, true⟩)
            | .ok (blocks', b') =>
              let st2 := doneWithTarget { st1 with blocks := blocks' } newEvtId b'.id tnow
              (.success, ⟨st2, true, true⟩)
          | .locked => (.otherError EngineErr.locked.message, ⟨st, false, false⟩)
          | .blocked => (.otherError EngineErr.blocked.message, ⟨st, false, false⟩)

/-- Translation of the `eventBlockRemove` handler: require the
block-remove permission (401), validate the uuid (400), open an audit
event through the engine, and — with `evt.Done` deferred — deactivate the
block, mapping `ErrActiveEventBlockNotFound` to 404. -/
def eventBlockRemove (env : PermEnv) (token : String) (st : EngineState)
    (uuid newEvtId : String) (tnow : Nat) :
    HandlerOutcome Unit × BlockEffects :=
  if !env.check token permEventBlockRemove [] then (errUnauthorized, ⟨st, false, false⟩)
  else if !isObjectIdHex uuid then
    (.httpError 400 ("uuid parameter is not ObjectId: " ++ uuid), ⟨st, false, false⟩)
  else
    match openStep st ⟨targetTypeEventBlock, uuid⟩ permEventBlockRemove token
        newEvtId allowedBlockReadEvents ⟨"", []⟩ [] tnow with
    | (r, st1) =>
      match r with
      | .opened =>
        match removeBlock st1.blocks uuid tnow with
        | .error err =>
          let st2 := closeEvent st1 newEvtId tnow
          if err == .activeBlockNotFound then
            (.httpError 404 err.message, ⟨st2, true, true⟩)
          else (.otherError err.message, ⟨st2, true, true⟩)
        | .ok blocks' =>
          let st2 := closeEvent { st1 with blocks := blocks' } newEvtId tnow
          (.success, ⟨st2, true, true⟩)
      | .locked => (.otherError EngineErr.locked.message, ⟨st, false, false⟩)
      | .blocked => (.otherError EngineErr.blocked.message, ⟨st, false, false⟩)

/-! Concrete fixtures used by witness theorems. -/

/-- A well-formed 24-character hexadecimal object id. -/
def sampleUuid : String := "0123456789abcdef01234567"

/-- A second well-formed object id, distinct from `sampleUuid`. -/
def sampleUuid2 : String := "aaaaaaaaaaaaaaaaaaaaaaaa"

/-- A sample authorization descriptor. -/
def sampleDescr : AllowedDescr := ⟨"app.read", ["ctx1"]⟩

/-- A sample running event stored under `sampleUuid`. -/
def sampleEvent : Event :=
  ⟨sampleUuid, "app.deploy", ⟨"app", "myapp"⟩, "alice", 5, none, none,
    sampleDescr, sampleDescr, []⟩

/-- A permission environment that grants everything. -/
def sampleEnv : PermEnv := ⟨fun _ => true, fun _ _ _ => true⟩

/-- A permission environment that denies every check. -/
def sampleEnvDeny : PermEnv := ⟨fun _ => true, fun _ _ _ => false⟩

/-- A suppression environment with the config flag off. -/
def sampleSuppress : SuppressEnv :=
  ⟨false, fun _ => .ok ⟨none⟩, fun _ => .ok [], id⟩

/-- A sample block with a non-empty reason, currently active. -/
def sampleBlock : Block := ⟨sampleUuid2, "app.deploy", "", "", "", "maintenance", 3, none⟩

/-- A deactivated copy of `sampleBlock`. -/
def sampleBlockClosed : Block := { sampleBlock with endTime := some 9 }

/-! Theorems. -/

/-- C9: In `eventCancel` the empty-reason check precedes the AllowedCancel
authorization check: for every request on an existing event with an empty
reason, the handler answers 400 "reason is mandatory" regardless of the
permission environment, and the authorization predicate is never consulted
(`authConsulted = false`), nor is the cancellation attempted. -/
theorem eventCancel_emptyReason_precedes_auth
    (env : PermEnv) (token userName : String) (store : List Event)
    (uuid : String) (tnow : Nat) (e : Event)
    (huuid : isObjectIdHex uuid = true)
    (hfound : getByID store uuid = some e) :
    eventCancel env token userName store uuid "" tnow
      = (.httpError 400 "reason is mandatory", ⟨store, false, false⟩) := by
  simp [eventCancel, huuid, hfound]

/-- Witness for C9 on a concrete store, uuid and (granting) environment. -/
theorem eventCancel_emptyReason_precedes_auth_witness :
    isObjectIdHex sampleUuid = true ∧
    getByID [sampleEvent] sampleUuid = some sampleEvent ∧
    eventCancel sampleEnv "tok" "alice" [sampleEvent] sampleUuid "" 7
      = (.httpError 400 "reason is mandatory", ⟨[sampleEvent], false, false⟩) :=
  ⟨by decide, by decide,
    eventCancel_emptyReason_precedes_auth sampleEnv "tok" "alice" [sampleEvent]
      sampleUuid 7 sampleEvent (by decide) (by decide)⟩

/-- C6: A cancellation request whose (well-formed) event id matches no
stored event fails with the 404 NotFound outcome surfaced by the `GetByID`
lookup — not with NotCancelable — and the cancellation attempt itself is
never reached (`cancelAttempted = false`). -/
theorem eventCancel_missing_event_is_notFound
    (env : PermEnv) (token userName : String) (store : List Event)
    (uuid reason : String) (tnow : Nat)
    (huuid : isObjectIdHex uuid = true)
    (hmiss : getByID store uuid = none) :
    eventCancel env token userName store uuid reason tnow
      = (.httpError 404 EngineErr.notFound.message, ⟨store, false, false⟩) := by
  simp [eventCancel, huuid, hmiss]

/-- Witness for C6: cancelling on an empty store with a valid uuid. -/
theorem eventCancel_missing_event_is_notFound_witness :
    isObjectIdHex sampleUuid = true ∧
    getByID [] sampleUuid = none ∧
    eventCancel sampleEnv "tok" "alice" [] sampleUuid "why" 7
      = (.httpError 404 EngineErr.notFound.message, ⟨[], false, false⟩) :=
  ⟨by decide, by decide,
    eventCancel_missing_event_is_notFound sampleEnv "tok" "alice" []
      sampleUuid "why" 7 (by decide) (by decide)⟩

/-- C5: Empty reasons are rejected with InvalidInput and nothing is
persisted: `eventBlockAdd` on a parsed block with empty Reason answers 400
"reason is required" leaving the engine state untouched (no audit event,
no block), the engine-level `AddBlock` itself fails with `InvalidInput` on
an empty Reason, and `eventCancel` with an empty reason answers 400
"reason is mandatory" with the store unchanged and no CancelInfo written
(`cancelAttempted = false`). -/
theorem emptyReason_rejected_nothing_persisted
    (env : PermEnv) (token userName : String) (st : EngineState) (b : Block)
    (store : List Event) (uuid : String) (e : Event)
    (newEvtId newBlockId : String) (tnow : Nat)
    (hb : b.reason = "")
    (hperm : env.check token permEventBlockAdd [] = true)
    (huuid : isObjectIdHex uuid = true)
    (hfound : getByID store uuid = some e) :
    eventBlockAdd env token st (.ok b) newEvtId newBlockId tnow
      = (.httpError 400 "reason is required", ⟨st, false, false⟩) ∧
    addBlock st.blocks b newBlockId tnow = .error .invalidInput ∧
    eventCancel env token userName store uuid "" tnow
      = (.httpError 400 "reason is mandatory", ⟨store, false, false⟩) := by
  refine ⟨?_, ?_, ?_⟩
  · simp [eventBlockAdd, hb, hperm]
  · simp [addBlock, hb]
  · simp [eventCancel, huuid, hfound]

/-- Witness for C5: a concrete block with empty reason and a concrete
cancel request with empty reason. -/
theorem emptyReason_rejected_nothing_persisted_witness :
    ({ sampleBlock with reason := "" } : Block).reason = "" ∧
    sampleEnv.check "tok" permEventBlockAdd [] = true ∧
    isObjectIdHex sampleUuid = true ∧
    getByID [sampleEvent] sampleUuid = some sampleEvent ∧
    (eventBlockAdd sampleEnv "tok" ⟨[], []⟩ (.ok { sampleBlock with reason := "" }) "e1" "b1" 7
       = (.httpError 400 "reason is required", ⟨⟨[], []⟩, false, false⟩) ∧
     addBlock (⟨[], []⟩ : EngineState).blocks { sampleBlock with reason := "" } "b1" 7
       = .error .invalidInput ∧
     eventCancel sampleEnv "tok" "alice" [sampleEvent] sampleUuid "" 7
       = (.httpError 400 "reason is mandatory", ⟨[sampleEvent], false, false⟩)) :=
  ⟨by decide, by decide, by decide, by decide,
    emptyReason_rejected_nothing_persisted sampleEnv "tok" "alice" ⟨[], []⟩
      { sampleBlock with reason := "" } [sampleEvent] sampleUuid sampleEvent
      "e1" "b1" 7 (by decide) (by decide) (by decide) (by decide)⟩

/-- When `strconv.ParseBool` fails, the value it returns alongside the
error is `false`. -/
theorem parseBoolGo_fail_val (s : String) (h : (parseBoolGo s).2 = false) :
    (parseBoolGo s).1 = false := by
  unfold parseBoolGo at h ⊢
  split at h <;> simp_all
  split at h <;> simp_all

/-- C10: In `eventBlockList` the parse error of the `active` query
parameter is discarded: a non-empty value that is no valid boolean does
not make the request fail; the handler proceeds with `active = some
false`, i.e. lists the inactive blocks (204 when that listing is empty). -/
theorem eventBlockList_bad_active_lists_inactive
    (env : PermEnv) (token : String) (blocks : List Block) (s : String)
    (hperm : env.check token permEventBlockRead [] = true)
    (hne : s ≠ "")
    (hbad : (parseBoolGo s).2 = false) :
    eventBlockList env token blocks s
      = (if (listBlocks blocks (some false)).length == 0 then .noContent
         else .json (listBlocks blocks (some false))) := by
  have hv := parseBoolGo_fail_val s hbad
  simp [eventBlockList, hperm, hne, hv]

/-- Witness for C10: the string "banana" is not a valid boolean; with one
active and one inactive block stored, only the inactive one is listed. -/
theorem eventBlockList_bad_active_lists_inactive_witness :
    sampleEnv.check "tok" permEventBlockRead [] = true ∧
    ("banana" : String) ≠ "" ∧
    (parseBoolGo "banana").2 = false ∧
    eventBlockList sampleEnv "tok" [sampleBlock, sampleBlockClosed] "banana"
      = (if (listBlocks [sampleBlock, sampleBlockClosed] (some false)).length == 0
         then .noContent
         else .json (listBlocks [sampleBlock, sampleBlockClosed] (some false))) :=
  ⟨by decide, by decide, by decide,
    eventBlockList_bad_active_lists_inactive sampleEnv "tok"
      [sampleBlock, sampleBlockClosed] "banana" (by decide) (by decide) (by decide)⟩

/-- C4: Every listing whose result set is empty answers with the distinct
no-content outcome (204, no body) rather than an error or an encoded empty
collection: the event list (when parsing and permission loading succeed),
the kind list, and the block list (for an authorized caller). -/
theorem listings_empty_give_noContent :
    (∀ (permCheck : AllowedDescr → Bool) (matchesFilter : Event → Bool)
        (senv : SuppressEnv) (store : List Event),
       eventListEngine permCheck matchesFilter store = [] →
       eventList none none permCheck matchesFilter senv store = .noContent) ∧
    (∀ store : List Event, getKinds store = [] → kindList store = .noContent) ∧
    (∀ (env : PermEnv) (token : String) (blocks : List Block) (s : String),
       env.check token permEventBlockRead [] = true →
       listBlocks blocks (if s != "" then some (parseBoolGo s).1 else none) = [] →
       eventBlockList env token blocks s = .noContent) := by
  refine ⟨?_, ?_, ?_⟩
  · intro permCheck matchesFilter senv store h
    simp [eventList, h]
  · intro store h
    simp [kindList, h]
  · intro env token blocks s hperm h
    simp only [eventBlockList, hperm, Bool.not_true, Bool.false_eq_true,
      if_false, h]
    simp

/-- Witness for C4 on empty stores. -/
theorem listings_empty_give_noContent_witness :
    eventListEngine (fun _ => true) (fun _ => true) [] = [] ∧
    getKinds [] = [] ∧
    sampleEnv.check "tok" permEventBlockRead [] = true ∧
    listBlocks [] (if ("" : String) != "" then some (parseBoolGo "").1 else none) = [] ∧
    (eventList none none (fun _ => true) (fun _ => true) sampleSuppress [] = .noContent ∧
     kindList ([] : List Event) = .noContent ∧
     eventBlockList sampleEnv "tok" [] "" = .noContent) :=
  ⟨rfl, rfl, rfl, rfl,
    listings_empty_give_noContent.1 (fun _ => true) (fun _ => true) sampleSuppress [] rfl,
    listings_empty_give_noContent.2.1 [] rfl,
    listings_empty_give_noContent.2.2 sampleEnv "tok" [] "" rfl rfl⟩

/-- C3: The API layer maps each typed engine failure to a distinct client
status: a cancellation on a non-running or already-cancel-pending event
(NotCancelable) yields 400; removing a block id with no active block
(ActiveBlockNotFound) yields 404; and a false authorization predicate
yields the 401 Unauthorized outcome, in `eventCancel` and in
`eventBlockRemove`. -/
theorem api_error_mapping :
    (∀ (env : PermEnv) (token userName : String) (store : List Event)
        (uuid reason : String) (tnow : Nat) (e : Event),
       isObjectIdHex uuid = true → getByID store uuid = some e → reason ≠ "" →
       env.knownScheme e.allowedCancel.scheme = true →
       env.check token e.allowedCancel.scheme e.allowedCancel.contexts = true →
       (e.isRunning = false ∨ e.cancelInfo.isSome = true) →
       (eventCancel env token userName store uuid reason tnow).1
         = .httpError 400 EngineErr.notCancelable.message) ∧
    (∀ (env : PermEnv) (token : String) (st : EngineState)
        (uuid newEvtId : String) (tnow : Nat),
       env.check token permEventBlockRemove [] = true →
       isObjectIdHex uuid = true →
       (st.blocks.filter Block.isActive).any
         (fun b => blockMatches b permEventBlockRemove token ⟨targetTypeEventBlock, uuid⟩) = false →
       hasRunning st.events ⟨targetTypeEventBlock, uuid⟩ = false →
       st.blocks.any (fun b => b.id == uuid && b.isActive) = false →
       (eventBlockRemove env token st uuid newEvtId tnow).1
         = .httpError 404 EngineErr.activeBlockNotFound.message) ∧
    (∀ (env : PermEnv) (token userName : String) (store : List Event)
        (uuid reason : String) (tnow : Nat) (e : Event),
       isObjectIdHex uuid = true → getByID store uuid = some e → reason ≠ "" →
       env.knownScheme e.allowedCancel.scheme = true →
       env.check token e.allowedCancel.scheme e.allowedCancel.contexts = false →
       (eventCancel env token userName store uuid reason tnow).1 = errUnauthorized) ∧
    (∀ (env : PermEnv) (token : String) (st : EngineState)
        (uuid newEvtId : String) (tnow : Nat),
       env.check token permEventBlockRemove [] = false →
       (eventBlockRemove env token st uuid newEvtId tnow).1 = errUnauthorized) := by
  refine ⟨?_, ?_, ?_, ?_⟩
  · intro env token userName store uuid reason tnow e huuid hfound hreason hscheme hcheck hnc
    rcases hnc with h | h <;>
      simp [eventCancel, huuid, hfound, hreason, hscheme, hcheck, tryCancel, h]
  · intro env token st uuid newEvtId tnow hperm huuid hnoblock hnorun hmiss
    simp [eventBlockRemove, hperm, huuid, openStep, hnoblock, hnorun,
      removeBlock, hmiss]
  · intro env token userName store uuid reason tnow e huuid hfound hreason hscheme hcheck
    simp [eventCancel, huuid, hfound, hreason, hscheme, hcheck]
  · intro env token st uuid newEvtId tnow hperm
    simp [eventBlockRemove, hperm]

/-- A closed copy of `sampleEvent` (EndTime set, no longer running). -/
def sampleEventClosed : Event := { sampleEvent with endTime := some 6 }

/-- Witness for C3: a closed event being cancelled, a block removal on an
empty block store, and a denying permission environment. -/
theorem api_error_mapping_witness :
    (isObjectIdHex sampleUuid = true ∧
     getByID [sampleEventClosed] sampleUuid = some sampleEventClosed ∧
     ("why" : String) ≠ "" ∧
     sampleEnv.knownScheme sampleEventClosed.allowedCancel.scheme = true ∧
     sampleEnv.check "tok" sampleEventClosed.allowedCancel.scheme
       sampleEventClosed.allowedCancel.contexts = true ∧
     sampleEventClosed.isRunning = false ∧
     (eventCancel sampleEnv "tok" "alice" [sampleEventClosed] sampleUuid "why" 7).1
       = .httpError 400 EngineErr.notCancelable.message) ∧
    ((eventBlockRemove sampleEnv "tok" ⟨[], []⟩ sampleUuid "e1" 7).1
       = .httpError 404 EngineErr.activeBlockNotFound.message) ∧
    ((eventCancel sampleEnvDeny "tok" "alice" [sampleEvent] sampleUuid "why" 7).1
       = errUnauthorized) ∧
    ((eventBlockRemove sampleEnvDeny "tok" ⟨[], []⟩ sampleUuid "e1" 7).1
       = errUnauthorized) :=
  ⟨⟨by decide, by decide, by decide, by decide, by decide, by decide,
     api_error_mapping.1 sampleEnv "tok" "alice" [sampleEventClosed] sampleUuid
       "why" 7 sampleEventClosed (by decide) (by decide) (by decide) (by decide)
       (by decide) (Or.inl (by decide))⟩,
   api_error_mapping.2.1 sampleEnv "tok" ⟨[], []⟩ sampleUuid "e1" 7
     (by decide) (by decide) (by decide) (by decide) (by decide),
   api_error_mapping.2.2.1 sampleEnvDeny "tok" "alice" [sampleEvent] sampleUuid
     "why" 7 sampleEvent (by decide) (by decide) (by decide) (by decide) (by decide),
   api_error_mapping.2.2.2 sampleEnvDeny "tok" ⟨[], []⟩ sampleUuid "e1" 7 (by decide)⟩

/-- Membership in the descending insertion is membership in the inserted
element or the original list. -/
theorem mem_insertDesc {α : Type} (key : α → Nat) (x a : α) (l : List α) :
    a ∈ insertDesc key x l ↔ a = x ∨ a ∈ l := by
  induction l with
  | nil => simp [insertDesc]
  | cons y ys ih =>
    simp only [insertDesc]
    split
    · simp [List.mem_cons]
    · simp only [List.mem_cons, ih]
      tauto

/-- The descending sort does not change membership. -/
theorem mem_sortByDesc {α : Type} (key : α → Nat) (a : α) (l : List α) :
    a ∈ sortByDesc key l ↔ a ∈ l := by
  induction l with
  | nil => simp [sortByDesc]
  | cons x xs ih =>
    show a ∈ insertDesc key x (sortByDesc key xs) ↔ _
    rw [mem_insertDesc, ih]
    simp [List.mem_cons]

/-- C2: Authorization scoping — when the caller's authorization predicate
rejects an event's Allowed descriptor, `eventInfo` answers 401
Unauthorized and never serializes the event, and the engine's `List` never
includes the event in its result, even when every other filter predicate
matches. -/
theorem unauthorized_events_invisible :
    (∀ (env : PermEnv) (senv : SuppressEnv) (token : String) (store : List Event)
        (uuid : String) (e : Event),
       isObjectIdHex uuid = true → getByID store uuid = some e →
       env.knownScheme e.allowed.scheme = true →
       env.check token e.allowed.scheme e.allowed.contexts = false →
       eventInfo env senv token store uuid = errUnauthorized ∧
       ∀ b, eventInfo env senv token store uuid ≠ .json b) ∧
    (∀ (permCheck : AllowedDescr → Bool) (matchesFilter : Event → Bool)
        (store : List Event) (e : Event),
       permCheck e.allowed = false →
       e ∉ eventListEngine permCheck matchesFilter store) := by
  constructor
  · intro env senv token store uuid e huuid hfound hscheme hcheck
    have hres : eventInfo env senv token store uuid = errUnauthorized := by
      simp [eventInfo, huuid, hfound, hscheme, hcheck]
    exact ⟨hres, fun b => by simp [hres, errUnauthorized]⟩
  · intro permCheck matchesFilter store e hcheck hmem
    rw [eventListEngine, mem_sortByDesc] at hmem
    rcases List.mem_filter.mp hmem with ⟨_, hcond⟩
    rw [Bool.and_eq_true] at hcond
    rw [hcond.2] at hcheck
    exact absurd hcheck (by simp)

/-- Witness for C2: a denying environment on a stored event, and an engine
listing whose permission predicate rejects everything. -/
theorem unauthorized_events_invisible_witness :
    (eventInfo sampleEnvDeny sampleSuppress "tok" [sampleEvent] sampleUuid
       = errUnauthorized) ∧
    sampleEvent ∉ eventListEngine (fun _ => false) (fun _ => true) [sampleEvent] :=
  ⟨(unauthorized_events_invisible.1 sampleEnvDeny sampleSuppress "tok"
      [sampleEvent] sampleUuid sampleEvent (by decide) (by decide) (by decide)
      (by decide)).1,
   unauthorized_events_invisible.2 (fun _ => false) (fun _ => true)
     [sampleEvent] sampleEvent rfl⟩

/-- C8: `suppressSensitiveEnvs` modifies at most the StartCustomData field
— every other field of a successfully returned event equals the input's —
and returns the event entirely unchanged (with a nil error) whenever
suppression is disabled, the Kind is not the app-deploy permission name,
StartCustomData is empty, or the decoded deploy options carry no App. -/
theorem suppressSensitiveEnvs_frame :
    (∀ (senv : SuppressEnv) (e e' : Event),
       suppressSensitiveEnvs senv e = .ok e' →
       e'.id = e.id ∧ e'.kindName = e.kindName ∧ e'.target = e.target ∧
       e'.ownerName = e.ownerName ∧ e'.startTime = e.startTime ∧
       e'.endTime = e.endTime ∧ e'.cancelInfo = e.cancelInfo ∧
       e'.allowed = e.allowed ∧ e'.allowedCancel = e.allowedCancel) ∧
    (∀ (senv : SuppressEnv) (e : Event),
       (senv.suppressEnabled = false ∨ e.kindName ≠ permAppDeploy ∨
        e.startCustomData = [] ∨
        (∃ d, senv.unmarshal e.startCustomData = .ok d ∧ d.app = none)) →
       suppressSensitiveEnvs senv e = .ok e) := by
  constructor
  · intro senv e e' h
    unfold suppressSensitiveEnvs at h
    split at h
    · obtain rfl : e = e' := by injection h
      simp
    · split at h
      · obtain rfl : e = e' := by injection h
        simp
      · split at h
        · simp at h
        · split at h
          · obtain rfl : e = e' := by injection h
            simp
          · split at h
            · simp at h
            · obtain rfl := (Except.ok.injEq _ _).mp h
              simp
  · intro senv e hcond
    unfold suppressSensitiveEnvs
    by_cases hs : senv.suppressEnabled = true
    · rcases hcond with h | h | h | ⟨d, hd, hda⟩
      · rw [h] at hs; exact absurd hs (by simp)
      · have hk : (e.kindName != permAppDeploy) = true := by simp [h]
        simp [hs, hk]
      · simp [hs, h]
      · by_cases hor : (e.kindName != permAppDeploy || e.startCustomData.length == 0) = true
        · simp [hs, hor]
        · simp only [hs, Bool.not_true, Bool.false_eq_true, if_false,
            hor, hd, hda]
    · simp [Bool.not_eq_true] at hs
      simp [hs]

/-- Suppression environment with the flag on: decodes to a deploy carrying
an App, redacts it to empty envs, re-encodes to the bytes `[1, 2]`. -/
def sampleSuppressOn : SuppressEnv :=
  ⟨true, fun _ => .ok ⟨some ⟨"a", [("SECRET", "y")]⟩⟩, fun _ => .ok [1, 2],
   fun a => { a with envs := [] }⟩

/-- A deploy event with a non-empty payload. -/
def sampleDeployEvent : Event := { sampleEvent with startCustomData := [0] }

/-- Witness for C8: a rewriting run preserving every non-payload field, and
two unchanged runs (flag off; App missing). -/
theorem suppressSensitiveEnvs_frame_witness :
    suppressSensitiveEnvs sampleSuppressOn sampleDeployEvent
      = .ok { sampleDeployEvent with startCustomData := [1, 2] } ∧
    ({ sampleDeployEvent with startCustomData := [1, 2] } : Event).allowed
      = sampleDeployEvent.allowed ∧
    suppressSensitiveEnvs sampleSuppress sampleDeployEvent = .ok sampleDeployEvent ∧
    suppressSensitiveEnvs
      ⟨true, fun _ => .ok ⟨none⟩, fun _ => .ok [], id⟩ sampleDeployEvent
      = .ok sampleDeployEvent :=
  ⟨by rfl,
   (suppressSensitiveEnvs_frame.1 sampleSuppressOn sampleDeployEvent
     { sampleDeployEvent with startCustomData := [1, 2] } (by rfl)).2.2.2.2.2.2.2.1,
   suppressSensitiveEnvs_frame.2 sampleSuppress sampleDeployEvent (Or.inl rfl),
   suppressSensitiveEnvs_frame.2
     ⟨true, fun _ => .ok ⟨none⟩, fun _ => .ok [], id⟩ sampleDeployEvent
     (Or.inr (Or.inr (Or.inr ⟨⟨none⟩, rfl, rfl⟩)))⟩

/-- In `eventBlockAdd` the done flag of the effects always equals the
new-event-succeeded flag: the deferred close runs on exactly the paths
where the audit event was opened. -/
theorem blockAdd_done_eq_new (env : PermEnv) (token : String) (st : EngineState)
    (parse : Except String Block) (newEvtId newBlockId : String) (tnow : Nat) :
    (eventBlockAdd env token st parse newEvtId newBlockId tnow).2.doneCalled
      = (eventBlockAdd env token st parse newEvtId newBlockId tnow).2.newSucceeded := by
  unfold eventBlockAdd
  repeat' split
  all_goals rfl

/-- In `eventBlockRemove` the done flag of the effects always equals the
new-event-succeeded flag. -/
theorem blockRemove_done_eq_new (env : PermEnv) (token : String)
    (st : EngineState) (uuid newEvtId : String) (tnow : Nat) :
    (eventBlockRemove env token st uuid newEvtId tnow).2.doneCalled
      = (eventBlockRemove env token st uuid newEvtId tnow).2.newSucceeded := by
  unfold eventBlockRemove
  repeat' split
  all_goals rfl

/-- C7: In `eventBlockAdd` and `eventBlockRemove`, whenever `event.New`
succeeds, the deferred `evt.Done` runs on every exit path of the handler —
including the paths where `AddBlock` or `RemoveBlock` fails — so the audit
event opened for the block operation is always closed. -/
theorem blockHandlers_done_on_every_exit :
    (∀ (env : PermEnv) (token : String) (st : EngineState)
        (parse : Except String Block) (newEvtId newBlockId : String) (tnow : Nat),
       (eventBlockAdd env token st parse newEvtId newBlockId tnow).2.newSucceeded = true →
       (eventBlockAdd env token st parse newEvtId newBlockId tnow).2.doneCalled = true) ∧
    (∀ (env : PermEnv) (token : String) (st : EngineState)
        (uuid newEvtId : String) (tnow : Nat),
       (eventBlockRemove env token st uuid newEvtId tnow).2.newSucceeded = true →
       (eventBlockRemove env token st uuid newEvtId tnow).2.doneCalled = true) := by
  constructor
  · intro env token st parse newEvtId newBlockId tnow h
    rw [blockAdd_done_eq_new]
    exact h
  · intro env token st uuid newEvtId tnow h
    rw [blockRemove_done_eq_new]
    exact h

/-- Witness for C7: a successful add run, and a remove run whose
`RemoveBlock` fails with ActiveBlockNotFound — Done runs in both. -/
theorem blockHandlers_done_on_every_exit_witness :
    (eventBlockAdd sampleEnv "tok" ⟨[], []⟩ (.ok sampleBlock) "e1" "b1" 7).2.newSucceeded
        = true ∧
    (eventBlockAdd sampleEnv "tok" ⟨[], []⟩ (.ok sampleBlock) "e1" "b1" 7).2.doneCalled
        = true ∧
    (eventBlockRemove sampleEnv "tok" ⟨[], []⟩ sampleUuid "e2" 7).2.newSucceeded
        = true ∧
    (eventBlockRemove sampleEnv "tok" ⟨[], []⟩ sampleUuid "e2" 7).2.doneCalled
        = true :=
  ⟨by decide,
   blockHandlers_done_on_every_exit.1 sampleEnv "tok" ⟨[], []⟩ (.ok sampleBlock)
     "e1" "b1" 7 (by decide),
   by decide,
   blockHandlers_done_on_every_exit.2 sampleEnv "tok" ⟨[], []⟩ sampleUuid
     "e2" 7 (by decide)⟩

/-- When no active block matches and no running event holds the target,
`Open` grants the lock and persists the new running event. -/
theorem openStep_grants (st : EngineState) (t : Target) (kind owner id : String)
    (a ac : AllowedDescr) (cd : List Nat) (tnow : Nat)
    (hnb : (st.blocks.filter Block.isActive).any
      (fun b => blockMatches b kind owner t) = false)
    (hnr : hasRunning st.events t = false) :
    openStep st t kind owner id a ac cd tnow =
      (.opened,
        { st with events :=
            ⟨id, kind, t, owner, tnow, none, none, a, ac, cd⟩ :: st.events }) := by
  simp [openStep, hnb, hnr]

/-- When no active block matches but a running event already holds the
target, `Open` fails with `Locked` and leaves the state untouched. -/
theorem openStep_lockedOut (st : EngineState) (t : Target) (kind owner id : String)
    (a ac : AllowedDescr) (cd : List Nat) (tnow : Nat)
    (hnb : (st.blocks.filter Block.isActive).any
      (fun b => blockMatches b kind owner t) = false)
    (hr : hasRunning st.events t = true) :
    openStep st t kind owner id a ac cd tnow = (.locked, st) := by
  simp [openStep, hnb, hr]

/-- While the target is held (and no block matches), every further `Open`
in the linearization fails with `Locked` and the state never changes. -/
theorem runOpens_all_locked (t : Target) (kind owner : String)
    (a ac : AllowedDescr) (cd : List Nat) (tnow : Nat) :
    ∀ (n i : Nat) (st : EngineState),
      (st.blocks.filter Block.isActive).any
        (fun b => blockMatches b kind owner t) = false →
      hasRunning st.events t = true →
      runOpens st t kind owner a ac cd tnow i n = (List.replicate n .locked, st) := by
  intro n
  induction n with
  | zero => intro i st _ _; rfl
  | succ m ih =>
    intro i st hnb hr
    rw [runOpens, openStep_lockedOut st t kind owner (toString i) a ac cd tnow hnb hr]
    simp [ih (i + 1) st hnb hr, List.replicate_succ]

/-- Linearizing `n + 1` opens from a free target grants exactly the first
one; the remaining `n` all fail with `Locked`, and the final state is the
initial one plus the single granted running event. -/
theorem runOpens_first_grant (st : EngineState) (t : Target) (kind owner : String)
    (a ac : AllowedDescr) (cd : List Nat) (tnow : Nat) (n i : Nat)
    (hnb : (st.blocks.filter Block.isActive).any
      (fun b => blockMatches b kind owner t) = false)
    (hnr : hasRunning st.events t = false) :
    runOpens st t kind owner a ac cd tnow i (n + 1)
      = (.opened :: List.replicate n .locked,
         { st with events :=
             ⟨toString i, kind, t, owner, tnow, none, none, a, ac, cd⟩ :: st.events }) := by
  rw [runOpens, openStep_grants st t kind owner (toString i) a ac cd tnow hnb hnr]
  dsimp only
  have hr : hasRunning
      (({ st with events :=
          ⟨toString i, kind, t, owner, tnow, none, none, a, ac, cd⟩ :: st.events }
        : EngineState).events) t = true := by
    simp [hasRunning, Event.isRunning]
  rw [runOpens_all_locked t kind owner a ac cd tnow n (i + 1)
    { st with events :=
        ⟨toString i, kind, t, owner, tnow, none, none, a, ac, cd⟩ :: st.events }
    hnb hr]

/-- Closing events cannot create a running one: if no running event holds
the target, none does after any id is closed. -/
theorem hasRunning_close_map (es : List Event) (t : Target) (id : String)
    (tn : Nat) (h : hasRunning es t = false) :
    hasRunning
      (es.map (fun e => if e.id == id then { e with endTime := some tn } else e))
      t = false := by
  induction es with
  | nil => rfl
  | cons e es ih =>
    simp only [hasRunning, List.any_cons, Bool.or_eq_false_iff] at h
    simp only [hasRunning, List.map_cons, List.any_cons, Bool.or_eq_false_iff]
    refine ⟨?_, ih h.2⟩
    by_cases hid : (e.id == id) = true
    · simp [hid, Event.isRunning]
    · simp only [hid, Bool.false_eq_true, if_false]
      exact h.1

/-- C1: Mutual exclusion per Target — linearizing N ≥ 2 concurrent `Open`
calls for a free Target through the store's atomic conditional write
yields exactly one success and N − 1 immediate `Locked` failures (the
result sequence is one grant followed by N − 1 rejections, with no
queueing or retry), and once the successful caller's event (identity "0",
the first in linearization order) is closed, a subsequent `Open` for the
same Target succeeds. -/
theorem open_mutual_exclusion (st : EngineState) (t : Target)
    (kind owner : String) (a ac : AllowedDescr) (cd : List Nat)
    (tnow tnow2 : Nat) (N : Nat) (nextId : String)
    (hN : 2 ≤ N)
    (hnb : (st.blocks.filter Block.isActive).any
      (fun b => blockMatches b kind owner t) = false)
    (hnr : hasRunning st.events t = false) :
    (runOpens st t kind owner a ac cd tnow 0 N).1
        = .opened :: List.replicate (N - 1) .locked ∧
    (runOpens st t kind owner a ac cd tnow 0 N).1.count .opened = 1 ∧
    (runOpens st t kind owner a ac cd tnow 0 N).1.count .locked = N - 1 ∧
    (openStep (closeEvent (runOpens st t kind owner a ac cd tnow 0 N).2 "0" tnow2)
        t kind owner nextId a ac cd tnow2).1 = .opened := by
  obtain ⟨m, rfl⟩ : ∃ m, N = m + 1 := ⟨N - 1, by omega⟩
  rw [runOpens_first_grant st t kind owner a ac cd tnow m 0 hnb hnr]
  dsimp only
  have h0 : ((toString 0 : String) == "0") = true := by decide
  refine ⟨by simp, ?_, ?_, ?_⟩
  · simp [List.count_cons, List.count_replicate]
  · simp [List.count_cons, List.count_replicate]
  · have hc : hasRunning
        (closeEvent
          { st with events :=
              ⟨toString 0, kind, t, owner, tnow, none, none, a, ac, cd⟩ :: st.events }
          "0" tnow2).events t = false := by
      simp only [closeEvent, List.map_cons]
      simp only [hasRunning, List.any_cons, Bool.or_eq_false_iff]
      constructor
      · simp [h0, Event.isRunning]
      · have := hasRunning_close_map st.events t "0" tnow2 hnr
        simpa [hasRunning] using this
    rw [openStep_grants
      (closeEvent
        { st with events :=
            ⟨toString 0, kind, t, owner, tnow, none, none, a, ac, cd⟩ :: st.events }
        "0" tnow2)
      t kind owner nextId a ac cd tnow2 (by simpa [closeEvent] using hnb) hc]

/-- Witness for C1: three concurrent opens of a fresh target from the
empty state — the first is granted, the other two are locked; after the
close, the next open is granted again. -/
theorem open_mutual_exclusion_witness :
    (2 ≤ 3 ∧
     ((⟨[], []⟩ : EngineState).blocks.filter Block.isActive).any
       (fun b => blockMatches b "app.deploy" "alice" ⟨"app", "foo"⟩) = false ∧
     hasRunning (⟨[], []⟩ : EngineState).events ⟨"app", "foo"⟩ = false) ∧
    (runOpens ⟨[], []⟩ ⟨"app", "foo"⟩ "app.deploy" "alice" sampleDescr sampleDescr [] 7 0 3).1
      = .opened :: List.replicate 2 .locked ∧
    (runOpens ⟨[], []⟩ ⟨"app", "foo"⟩ "app.deploy" "alice" sampleDescr sampleDescr [] 7 0 3).1.count .opened = 1 ∧
    (runOpens ⟨[], []⟩ ⟨"app", "foo"⟩ "app.deploy" "alice" sampleDescr sampleDescr [] 7 0 3).1.count .locked = 2 ∧
    (openStep
        (closeEvent (runOpens ⟨[], []⟩ ⟨"app", "foo"⟩ "app.deploy" "alice" sampleDescr sampleDescr [] 7 0 3).2 "0" 9)
        ⟨"app", "foo"⟩ "app.deploy" "alice" "next" sampleDescr sampleDescr [] 9).1 = .opened :=
  ⟨⟨by decide, by decide, by decide⟩,
    open_mutual_exclusion ⟨[], []⟩ ⟨"app", "foo"⟩ "app.deploy" "alice"
      sampleDescr sampleDescr [] 7 9 3 "next" (by decide) (by decide) (by decide)⟩

end Tsuru
